import Mathlib

deriving instance DecidableEq for Except

/-!
Verification of the safe_network node core against its specification.

The Rust sources embedded here (shallowly) are:
- `sn_node/src/node/messaging/anti_entropy.rs` (`check_for_entropy`,
  `handle_anti_entropy_msg`),
- `sn_node/src/node/messaging/mod.rs` (`apply_ae`),
- `sn_node/src/node/core/comm/back_pressure/mod.rs` (`try_get_new_value`),
- `sn_node/src/node/messaging/node_msgs.rs` (`send_msg`, `into_msg_bytes`),
- `sn_node/src/node/cfg/config_handler.rs` (`Config::validate`).

Modelling conventions:
- `XorName` (a 256-bit identifier) is a list of bits, most significant first;
  a network prefix is likewise a list of bits and `matches` is bit-list
  prefix inclusion, exactly the semantics of the `xor_name` crate.
- BLS public keys are opaque and modelled as naturals.
- Serialisation is modelled as the identity on wire messages (the spec's
  round-trip law), so bounced bytes are the message itself.
- `f64` arithmetic in the backpressure controller is modelled as exact
  rational arithmetic; the comparison structure of the code is kept verbatim.
-/

namespace SafeNet

/-- An address in the XOR space, as a list of bits (most significant first). -/
abbrev XorName := List Bool

/-- A section XOR-space bit-string (the `Prefix` of the `xor_name` crate). -/
abbrev Pfx := List Bool

/-- An opaque BLS public key. -/
abbrev BlsKey := Nat

/-- A network peer: an XOR name plus an opaque socket address. -/
structure Peer where
  name : XorName
  addr : Nat
deriving DecidableEq

/-- Destination descriptor attached to every wire message: the believed
destination name and section key. -/
structure Dst where
  name : XorName
  sectionKey : BlsKey
deriving DecidableEq

/-- The four wire-message kinds (`MsgKind`); their payloads are opaque here. -/
inductive MsgKindTag where
  | node
  | client
  | nodeDataResponse
  | clientDataResponse
deriving DecidableEq

/-- A wire message: id, kind tag, opaque payload, destination descriptor. -/
structure WireMsg where
  msgId : Nat
  kind : MsgKindTag
  payload : Nat
  dst : Dst
deriving DecidableEq

/-- Serialised bytes of a wire message.  Serialisation is modelled as the
identity, which realises the spec round-trip law (`serialize` then
`deserialize` restores the message). -/
abbrev Bytes := WireMsg

/-- Rust `WireMsg::serialize`, modelled as the identity into `Bytes`. -/
def WireMsg.serialize (w : WireMsg) : Bytes := w

/-- The result of `WireMsg::deserialize`: a typed message
(`MsgType::Node`, `MsgType::Client`, ...). -/
inductive MsgType where
  | node (msg : Nat) (msgId : Nat) (dst : Dst)
  | client (msg : Nat) (msgId : Nat) (dst : Dst)
  | nodeDataResponse (msg : Nat) (msgId : Nat) (dst : Dst)
  | clientDataResponse (msg : Nat) (msgId : Nat) (dst : Dst)
deriving DecidableEq

/-- Rust `WireMsg::deserialize` on our identity serialisation: dispatch on the
kind tag, exposing payload, id and dst. -/
def deserializeWire (b : Bytes) : MsgType :=
  match b.kind with
  | .node => .node b.payload b.msgId b.dst
  | .client => .client b.payload b.msgId b.dst
  | .nodeDataResponse => .nodeDataResponse b.payload b.msgId b.dst
  | .clientDataResponse => .clientDataResponse b.payload b.msgId b.dst

/-- A Section Authority Provider: section bit-string, section key, elders. -/
structure Sap where
  pfx : Pfx
  sectionKey : BlsKey
  elders : List Peer
deriving DecidableEq

/-- A SAP together with its (opaque) BLS threshold signature. -/
structure SignedSap where
  value : Sap
  sig : Nat
deriving DecidableEq

/-- A proof chain of BLS keys (oldest first). -/
abbrev Chain := List BlsKey

/-- Rust `SectionTreeUpdate { signed_sap, proof_chain }`. -/
structure SectionTreeUpdate where
  signedSap : SignedSap
  proofChain : Chain
deriving DecidableEq

/-- The per-node network knowledge: our signed SAP, our section chain, and
the section tree (each entry a signed SAP with a chain witnessing it).
Our current section key and bit-string are those of our signed SAP. -/
structure NetworkKnowledge where
  signedSap : SignedSap
  chain : Chain
  sectionTree : List (SignedSap × Chain)
deriving DecidableEq

/-- Rust `network_knowledge.prefix()`: our section's bit-string. -/
def NetworkKnowledge.pfx (nk : NetworkKnowledge) : Pfx :=
  nk.signedSap.value.pfx

/-- Rust `network_knowledge.section_key()`: our current section key. -/
def NetworkKnowledge.sectionKey (nk : NetworkKnowledge) : BlsKey :=
  nk.signedSap.value.sectionKey

/-- Modelled from the spec: `closest_signed_sap_with_chain(name)` of
`NetworkKnowledge` (the `sn_interface` implementation is not under `src/`):
"returns the entry whose prefix is the longest prefix of `name` known
locally, together with a chain witnessing it"; `none` when no entry's
bit-string is a prefix of `name`. -/
def closestSignedSapWithChain (nk : NetworkKnowledge) (name : XorName) :
    Option (SignedSap × Chain) :=
  nk.sectionTree.foldl
    (fun acc e =>
      if e.1.value.pfx.isPrefixOf name then
        match acc with
        | none => some e
        | some a =>
          if a.1.value.pfx.length < e.1.value.pfx.length then some e else some a
      else acc)
    none

/-- Modelled from the spec: `get_proof_chain_to(key) → chain | NotFound`
(the `sn_interface` implementation is not under `src/`): the sub-chain of our
section chain from `key` to the current key, if `key` is on it. -/
def getProofChainToCurrentSection (nk : NetworkKnowledge) (key : BlsKey) :
    Option Chain :=
  if key ∈ nk.chain then some (nk.chain.dropWhile (fun k => k ≠ key)) else none

/-- Rust `generate_ae_section_tree_update` (anti_entropy.rs:476): our signed SAP
plus the proof chain from the destination key when available, else our whole
section chain. -/
def generateAeSectionTreeUpdate (nk : NetworkKnowledge)
    (dstSectionKey : Option BlsKey) : SectionTreeUpdate :=
  { signedSap := nk.signedSap
    proofChain :=
      (dstSectionKey.bind (getProofChainToCurrentSection nk)).getD nk.chain }

/-- The error kinds of the node that the embedded functions surface. -/
inductive NodeError where
  | noMatchingSection
deriving DecidableEq

/-- Rust `AntiEntropyKind`: Update with a member set (opaque), or Retry/Redirect
carrying the bounced message bytes. -/
inductive AntiEntropyKind where
  | update (members : List Nat)
  | retry (bounced : Bytes)
  | redirect (bounced : Bytes)
deriving DecidableEq

/-- Rust `MyNode::check_for_entropy` (anti_entropy.rs:376-445): if our bit-string
does not match `dst.name`, Redirect with the closest known SAP (or the
`NoMatchingSection` error when none); else `none` when `dst.section_key`
is our current key; else Retry with our SAP and proof chain. -/
def checkForEntropy (wireMsg : WireMsg) (nk : NetworkKnowledge) :
    Except NodeError (Option (SectionTreeUpdate × AntiEntropyKind)) :=
  let dst := wireMsg.dst
  if ¬ (nk.pfx.isPrefixOf dst.name) then
    match closestSignedSapWithChain nk dst.name with
    | some (signedSap, proofChain) =>
      .ok (some (⟨signedSap, proofChain⟩, .redirect wireMsg.serialize))
    | none => .error .noMatchingSection
  else if dst.sectionKey = nk.sectionKey then
    .ok none
  else
    .ok (some (generateAeSectionTreeUpdate nk (some dst.sectionKey),
               .retry wireMsg.serialize))

/-- Rust `XorName::cmp_distance(&self, lhs, rhs)` of the `xor_name` crate (an
external collaborator of this repository): compares the XOR distances of
`lhs` and `rhs` to the target, examining bytes (hence bits) most significant
first; `.lt` when `lhs` is the closer one, `.eq` only when `lhs = rhs`. -/
def cmpDistance : XorName → XorName → XorName → Ordering
  | tb :: ts, lb :: ls, rb :: rs =>
    if lb = rb then cmpDistance ts ls rs
    else if (lb ^^ tb) = false then .lt else .gt
  | _, _, _ => .eq

/-- Rust's `Iterator::max_by`: the maximum per the comparator, the last one
when several are equally maximum, `none` on an empty iterator. -/
def rustMaxBy {α : Type} (cmp : α → α → Ordering) (l : List α) : Option α :=
  l.foldl
    (fun acc x =>
      match acc with
      | none => some x
      | some a => if cmp a x = .gt then some a else some x)
    none

/-- The elder choice of the `AntiEntropyKind::Redirect` arm of
`handle_anti_entropy_msg` (anti_entropy.rs:251-264):
`sap.elders().max_by(|lhs, rhs| target_name.cmp_distance(lhs.name, rhs.name))`
where `target_name = XorName::from(PublicKey::Bls(sap.section_key()))`.
The key-to-name conversion (a hash living in `sn_interface`, not under
`src/`) is passed in as `nameOfKey`. -/
def chooseRedirectTarget (nameOfKey : BlsKey → XorName) (sap : Sap) :
    Option Peer :=
  let targetName := nameOfKey sap.sectionKey
  rustMaxBy (fun lhs rhs => cmpDistance targetName lhs.name rhs.name) sap.elders

/-- The deserialise-then-loop-guard tail of `handle_anti_entropy_msg`
(anti_entropy.rs:272-297): a bounced message that is not a Node message is
dropped; one whose `dst.section_key` equals the received SAP's key is
dropped; otherwise the payload is re-sent to `target`. -/
def aeResendStep (sap : Sap) (bounced : Bytes) (target : Peer) :
    Option (Nat × Peer) :=
  match deserializeWire bounced with
  | .node msg _ dst =>
    if dst.sectionKey = sap.sectionKey then none else some (msg, target)
  | _ => none

/-- The re-send decision of `handle_anti_entropy_msg`
(anti_entropy.rs:241-297), as a pure function of the received SAP, the AE
kind and the sender: `none` means no re-send command is scheduled, and
`some (msg, peer)` means `Cmd::SendMsg` of `msg` to `peer` is pushed. -/
def aeResendDecision (nameOfKey : BlsKey → XorName) (sap : Sap)
    (kind : AntiEntropyKind) (sender : Peer) : Option (Nat × Peer) :=
  match kind with
  | .update _ => none
  | .retry bounced => aeResendStep sap bounced sender
  | .redirect bounced =>
    match chooseRedirectTarget nameOfKey sap with
    | some dstElder => aeResendStep sap bounced dstElder
    | none => none

/-- The system-message union of the `apply_ae` era (messaging/mod.rs), with
the three variants its match distinguishes and one constructor standing for
every variant caught by the `_` arm. -/
inductive SystemMsg where
  | antiEntropy (payload : Nat)
  | joinRequest (payload : Nat)
  | joinAsRelocatedRequest (payload : Nat)
  | otherMsg (payload : Nat)
deriving DecidableEq

/-- The commands the embedded handlers emit. -/
inductive Cmd where
  | trackNodeIssueInDysfunction (name : XorName)
  | handleFailedSendToNode (peer : Peer) (msgId : Nat)
  | aeResponseCmd (c : Nat)
  | sendMsgCmd (msg : Nat) (target : Peer)
deriving DecidableEq

/-- Whether a system message is exempt from the entropy check: the
`AntiEntropy | JoinRequest | JoinAsRelocatedRequest` arm of `apply_ae`
(messaging/mod.rs:210-219). -/
def isAeCheckExempt : SystemMsg → Bool
  | .antiEntropy _ => true
  | .joinRequest _ => true
  | .joinAsRelocatedRequest _ => true
  | .otherMsg _ => false

/-- Whether `apply_ae` (messaging/mod.rs:192-244) reaches its call of
`check_for_entropy`: not on a non-elder (early return), not on an exempt
message, and on everything else. -/
def aeCheckApplied (isElder : Bool) (msg : SystemMsg) : Bool :=
  if ¬ isElder then false
  else !(isAeCheckExempt msg)

/-- Rust `apply_ae` (messaging/mod.rs:192-244) with the result of its
`check_for_entropy` call passed in: empty on non-elders and on exempt
messages; on entropy, a dysfunction-tracking command followed by the AE
response command; empty when the check passes. -/
def applyAe (isElder : Bool) (msg : SystemMsg) (originName : XorName)
    (entropyCheck : Option Cmd) : List Cmd :=
  if ¬ isElder then []
  else
    match msg with
    | .antiEntropy _ => []
    | .joinRequest _ => []
    | .joinAsRelocatedRequest _ => []
    | .otherMsg _ =>
      match entropyCheck with
      | some aeCmd => [.trackNodeIssueInDysfunction originName, aeCmd]
      | none => []

/-- Rust `SANITY_MIN_PER_S_AND_PEER` (back_pressure/mod.rs:17): 1 msg per s. -/
def sanityMinPerSAndPeer : ℚ := 1

/-- The clamped per-peer tolerated rate computed by `try_get_new_value`
(back_pressure/mod.rs:47-57): ten times the EWMA inbound rate, divided by
the caller count (at least 1), capped above by `SANITY_MAX_PER_S_AND_PEER`
(passed in as `sanityMax`, since its value `INITIAL_MSGS_PER_S` lives in
`load_monitoring.rs`, which is not under `src/`; the spec calls it "an
implementation-wide initial ceiling") and below by 1. -/
def msgsPerSAndPeer (sanityMax ewma : ℚ) (sessionsCount : ℕ) : ℚ :=
  let msgsPerS := 10 * ewma
  let numCallers : ℚ := sessionsCount
  let perPeer := msgsPerS / max 1 numCallers
  max sanityMinPerSAndPeer (min sanityMax perPeer)

/-- The `significant_change` closure of `try_get_new_value`
(back_pressure/mod.rs:65-68): `0.95 >= change_ratio || change_ratio >= 1.1
|| change_ratio == 0.0`. -/
def significantChange (changeRatio : ℚ) : Bool :=
  decide ((19 : ℚ)/20 ≥ changeRatio) || decide (changeRatio ≥ (11 : ℚ)/10)
    || decide (changeRatio = 0)

/-- Rust `BackPressure::try_get_new_value` (back_pressure/mod.rs:46-108) modulo
timestamps: given the previous `last_report` value, returns the pair
(`last_report` value after the call, advertised value or `none`).  With a
previous report, a significant change of the ratio to it stores and
advertises the new value, else both are withheld; without one, the ratio is
taken against the ceiling and the value is stored either way but advertised
only on a significant change. -/
def tryGetNewValue (sanityMax ewma : ℚ) (sessionsCount : ℕ)
    (prev : Option ℚ) : Option ℚ × Option ℚ :=
  let v := msgsPerSAndPeer sanityMax ewma sessionsCount
  match prev with
  | some previous =>
    let changeRatio := v / previous
    if significantChange changeRatio then (some v, some v)
    else (some previous, none)
  | none =>
    let changeRatio := v / sanityMax
    if significantChange changeRatio then (some v, some v)
    else (some v, none)

/-- The comms-layer error kinds `send_msg` distinguishes
(`CommsError::FailedSend(peer)` versus anything else). -/
inductive CommsError where
  | failedSend (peer : Peer)
  | otherErr (e : Nat)
deriving DecidableEq

/-- The follow-up commands collected by `MyNode::send_msg`
(node_msgs.rs:58-75) from the per-peer comms results: one
`Cmd::HandleFailedSendToNode { peer, msg_id }` per `FailedSend(peer)`
result, nothing for any other result. -/
def sendMsgFollowUps (results : List (Except CommsError Unit)) (msgId : Nat) :
    List Cmd :=
  results.filterMap
    (fun r =>
      match r with
      | .error (.failedSend peer) => some (.handleFailedSendToNode peer msgId)
      | .error (.otherErr _) => none
      | .ok _ => none)

/-- Rust `Peers`: a single recipient or a set of them (messaging/mod.rs:45-48). -/
inductive Peers where
  | single (p : Peer)
  | multiple (ps : List Peer)
deriving DecidableEq

/-- The recipient list of a `Peers` value (into_msg_bytes, node_msgs.rs:529). -/
def Peers.toList : Peers → List Peer
  | .single p => [p]
  | .multiple ps => ps

/-- The placeholder destination given to the initial wire message of
`into_msg_bytes` (node_msgs.rs:535-538); in the source it is random and it
is overwritten for every recipient before being sent. -/
def placeholderDst : Dst :=
  { name := [], sectionKey := 0 }

/-- Rust `WireMsg::serialize_with_new_dst`: the cached bytes with the destination
replaced (identity serialisation). -/
def serializeWithNewDst (w : WireMsg) (dst : Dst) : Bytes :=
  { w with dst := dst }

/-- Rust `into_msg_bytes` (node_msgs.rs:521-558): serialise the message once,
then per recipient generate a `Dst` from network knowledge — a recipient for
whom that fails is skipped (only logged) — and re-stamp the bytes with it.
The `Dst` generation (`generate_dst`, in `sn_interface`, not under `src/`)
is passed in as `genDst`. -/
def intoMsgBytes (genDst : XorName → Except NodeError Dst) (msg : Nat)
    (msgId : Nat) (recipients : Peers) : Except NodeError (List (Peer × Bytes)) :=
  let initialWireMsg : WireMsg :=
    { msgId := msgId, kind := .node, payload := msg, dst := placeholderDst }
  .ok (recipients.toList.filterMap
    (fun peer =>
      match genDst peer.name with
      | .ok dst => some (peer, serializeWithNewDst initialWireMsg dst)
      | .error _ => none))

/-- Rust `MyNode::send_msg` (node_msgs.rs:37-78): build the per-peer bytes via
`into_msg_bytes`, send each through comms (`sendOutBytes` stands for the
comms layer), and return Ok with the follow-up commands of the results. -/
def sendMsg (genDst : XorName → Except NodeError Dst)
    (sendOutBytes : Peer → Bytes → Except CommsError Unit) (msg : Nat)
    (msgId : Nat) (recipients : Peers) : Except NodeError (List Cmd) :=
  match intoMsgBytes genDst msg msgId recipients with
  | .ok peerMsgs =>
    let results := peerMsgs.map (fun pm => sendOutBytes pm.1 pm.2)
    .ok (sendMsgFollowUps results msgId)
  | .error e => .error e

/-- The configuration error of `Config::validate`; the message text carried
by `Error::Configuration` is dropped here. -/
inductive ConfigError where
  | configuration
deriving DecidableEq

/-- The fields of `Config` (config_handler.rs:33-108) that its cross-field
validation reads; the file path is opaque. -/
structure Config where
  first : Bool
  networkContactsFile : Option Nat
deriving DecidableEq

/-- Rust `Config::validate` (config_handler.rs:132-143): `first` and
`network_contacts_file` must be given exclusively
(`!(self.first ^ self.network_contacts_file.is_some())` is an error). -/
def Config.validate (c : Config) : Except ConfigError Unit :=
  if ¬ (c.first ^^ c.networkContactsFile.isSome) then
    .error .configuration
  else
    .ok ()

/-- C1: for every wire message whose destination name admits a
longest-prefix lookup in the section tree, `check_for_entropy` returns no AE
response iff our bit-string matches `dst.name` and `dst.section_key` equals
our current section key; in particular a message whose key equals ours but
whose name is outside our bit-string still yields a Redirect (the prefix
check precedes the key check). -/
theorem checkForEntropy_ok_none_iff (wm : WireMsg) (nk : NetworkKnowledge)
    (h : (closestSignedSapWithChain nk wm.dst.name).isSome = true) :
    (checkForEntropy wm nk = .ok none ↔
      nk.pfx.isPrefixOf wm.dst.name = true ∧ wm.dst.sectionKey = nk.sectionKey)
    ∧ (wm.dst.sectionKey = nk.sectionKey →
       nk.pfx.isPrefixOf wm.dst.name = false →
       ∃ stu b, checkForEntropy wm nk = .ok (some (stu, .redirect b))) := by
  obtain ⟨⟨ssap, chain⟩, hsc⟩ := Option.isSome_iff_exists.mp h
  constructor
  · by_cases hp : nk.pfx.isPrefixOf wm.dst.name = true
    · by_cases hk : wm.dst.sectionKey = nk.sectionKey
      · simp [checkForEntropy, hp, hk]
      · simp [checkForEntropy, hp, hk]
    · simp only [Bool.not_eq_true] at hp
      simp [checkForEntropy, hp, hsc]
  · intro hk hp
    exact ⟨⟨ssap, chain⟩, wm.serialize, by simp [checkForEntropy, hp, hsc]⟩

/-- C1 witness: a concrete knowledge whose tree serves the lookup, and a
message whose key equals ours but whose name is outside our bit-string,
drawing a Redirect from the theorem. -/
theorem checkForEntropy_ok_none_iff_witness :
    (closestSignedSapWithChain
        ⟨⟨⟨[false], 1, []⟩, 0⟩, [1], [(⟨⟨[true], 2, []⟩, 0⟩, [2])]⟩
        [true, false]).isSome = true
    ∧ ∃ stu b,
        checkForEntropy ⟨7, .node, 99, ⟨[true, false], 1⟩⟩
            ⟨⟨⟨[false], 1, []⟩, 0⟩, [1], [(⟨⟨[true], 2, []⟩, 0⟩, [2])]⟩
          = .ok (some (stu, AntiEntropyKind.redirect b)) :=
  ⟨by decide,
   (checkForEntropy_ok_none_iff ⟨7, .node, 99, ⟨[true, false], 1⟩⟩
       ⟨⟨⟨[false], 1, []⟩, 0⟩, [1], [(⟨⟨[true], 2, []⟩, 0⟩, [2])]⟩
       (by decide)).2 (by decide) (by decide)⟩

/-- C4: a message whose destination name our bit-string does not match and
for which the section tree offers no matching entry makes
`check_for_entropy` return the `NoMatchingSection` error (and so neither a
Redirect nor a Retry); the function is pure, so no state is touched. -/
theorem checkForEntropy_noMatchingSection (wm : WireMsg)
    (nk : NetworkKnowledge)
    (hp : nk.pfx.isPrefixOf wm.dst.name = false)
    (hc : closestSignedSapWithChain nk wm.dst.name = none) :
    checkForEntropy wm nk = .error .noMatchingSection := by
  simp [checkForEntropy, hp, hc]

/-- C4 witness: an empty section tree and a destination outside our
bit-string hit the `NoMatchingSection` branch. -/
theorem checkForEntropy_noMatchingSection_witness :
    (NetworkKnowledge.pfx ⟨⟨⟨[false], 1, []⟩, 0⟩, [1], []⟩).isPrefixOf [true]
        = false
    ∧ closestSignedSapWithChain ⟨⟨⟨[false], 1, []⟩, 0⟩, [1], []⟩ [true] = none
    ∧ checkForEntropy ⟨7, .node, 99, ⟨[true], 1⟩⟩
        ⟨⟨⟨[false], 1, []⟩, 0⟩, [1], []⟩ = .error .noMatchingSection :=
  ⟨by decide, by decide,
   checkForEntropy_noMatchingSection ⟨7, .node, 99, ⟨[true], 1⟩⟩
     ⟨⟨⟨[false], 1, []⟩, 0⟩, [1], []⟩ (by decide) (by decide)⟩

/-- C2, the code evaluated at a failing input: with the key hashing to
`00`, elders at `01` (XOR distance `01`) and `11` (XOR distance `11`), the
Redirect arm of `handle_anti_entropy_msg` picks the elder at `11`, although
the elder at `01` is strictly XOR-closer to the target name — `max_by` under
`cmp_distance` (which orders closer-first as `.lt`) selects the farthest
elder, contradicting the inline comment and the spec. -/
theorem redirect_target_not_closest :
    chooseRedirectTarget (fun _ => [false, false])
        ⟨[true], 5, [⟨[false, true], 10⟩, ⟨[true, true], 11⟩]⟩
      = some ⟨[true, true], 11⟩
    ∧ cmpDistance [false, false] [false, true] [true, true] = .lt := by
  decide

/-- C3 counterexample: a non-elder (adult) node receiving a message that is
neither a join request nor an AE message does not run the entropy check —
`apply_ae` returns before calling `check_for_entropy`. -/
theorem applyAe_adult_skips_check :
    isAeCheckExempt (.otherMsg 0) = false
    ∧ aeCheckApplied false (.otherMsg 0) = false
    ∧ applyAe false (.otherMsg 0) [true] (some (.aeResponseCmd 0)) = [] := by
  decide

/-- C3 amended: on an elder the entropy check runs exactly on the messages
that are not AE, join or relocated-join requests (and entropy then yields a
dysfunction-tracking command followed by the AE response); a non-elder node
never runs the entropy check. -/
theorem applyAe_elder_check_iff (msg : SystemMsg) (originName : XorName)
    (c : Cmd) :
    (aeCheckApplied true msg = !(isAeCheckExempt msg))
    ∧ aeCheckApplied false msg = false
    ∧ (isAeCheckExempt msg = false →
        applyAe true msg originName (some c)
          = [.trackNodeIssueInDysfunction originName, c]
        ∧ applyAe true msg originName none = []) := by
  cases msg <;> simp [aeCheckApplied, isAeCheckExempt, applyAe]

/-- C3 witness: a concrete non-exempt message on an elder runs the check and
schedules the tracking and AE commands. -/
theorem applyAe_elder_check_iff_witness :
    isAeCheckExempt (SystemMsg.otherMsg 1) = false
    ∧ applyAe true (SystemMsg.otherMsg 1) [true] (some (Cmd.aeResponseCmd 0))
        = [Cmd.trackNodeIssueInDysfunction [true], Cmd.aeResponseCmd 0] :=
  ⟨by decide,
   ((applyAe_elder_check_iff (SystemMsg.otherMsg 1) [true]
       (Cmd.aeResponseCmd 0)).2.2 (by decide)).1⟩

/-- C5: an AE Retry or Redirect whose bounced message deserialises to a Node
message with `dst.section_key` equal to the received SAP's key is dropped —
the handler schedules no re-send command (loop guard). -/
theorem aeResend_loop_guard (nameOfKey : BlsKey → XorName) (sap : Sap)
    (sender : Peer) (bounced : Bytes) (m mid : Nat) (d : Dst)
    (hd : deserializeWire bounced = .node m mid d)
    (hk : d.sectionKey = sap.sectionKey) :
    aeResendDecision nameOfKey sap (.retry bounced) sender = none
    ∧ aeResendDecision nameOfKey sap (.redirect bounced) sender = none := by
  constructor
  · simp [aeResendDecision, aeResendStep, hd, hk]
  · unfold aeResendDecision
    cases chooseRedirectTarget nameOfKey sap <;>
      simp [aeResendStep, hd, hk]

/-- C5 witness: a concrete bounced Node message whose destination key equals
the received SAP's key is dropped on both the Retry and the Redirect path. -/
theorem aeResend_loop_guard_witness :
    deserializeWire ⟨3, .node, 42, ⟨[true], 5⟩⟩
        = MsgType.node 42 3 ⟨[true], 5⟩
    ∧ aeResendDecision (fun _ => []) ⟨[true], 5, [⟨[true], 0⟩]⟩
        (.retry ⟨3, .node, 42, ⟨[true], 5⟩⟩) ⟨[false], 1⟩ = none
    ∧ aeResendDecision (fun _ => []) ⟨[true], 5, [⟨[true], 0⟩]⟩
        (.redirect ⟨3, .node, 42, ⟨[true], 5⟩⟩) ⟨[false], 1⟩ = none :=
  ⟨rfl,
   (aeResend_loop_guard (fun _ => []) ⟨[true], 5, [⟨[true], 0⟩]⟩ ⟨[false], 1⟩
     ⟨3, .node, 42, ⟨[true], 5⟩⟩ 42 3 ⟨[true], 5⟩ rfl rfl).1,
   (aeResend_loop_guard (fun _ => []) ⟨[true], 5, [⟨[true], 0⟩]⟩ ⟨[false], 1⟩
     ⟨3, .node, 42, ⟨[true], 5⟩⟩ 42 3 ⟨[true], 5⟩ rfl rfl).2⟩

/-- The clamped per-peer rate is at least the sanity minimum of 1. -/
theorem one_le_msgsPerSAndPeer (sanityMax ewma : ℚ) (sc : ℕ) :
    1 ≤ msgsPerSAndPeer sanityMax ewma sc := by
  simp only [msgsPerSAndPeer, sanityMinPerSAndPeer]
  exact le_max_left 1 _

/-- The clamped per-peer rate is at most the sanity ceiling, the ceiling
being at least 1. -/
theorem msgsPerSAndPeer_le_sanityMax (sanityMax ewma : ℚ) (sc : ℕ)
    (h : 1 ≤ sanityMax) : msgsPerSAndPeer sanityMax ewma sc ≤ sanityMax := by
  simp only [msgsPerSAndPeer, sanityMinPerSAndPeer]
  exact max_le h (min_le_left _ _)

/-- The `significant_change` closure holds exactly on ratios at most 0.95,
at least 1.1, or zero. -/
theorem significantChange_true_iff (r : ℚ) :
    significantChange r = true ↔ (r ≤ 19/20 ∨ 11/10 ≤ r ∨ r = 0) := by
  simp only [significantChange, Bool.or_eq_true, decide_eq_true_eq, ge_iff_le]
  tauto

/-- The body of `try_get_new_value` on a present previous report. -/
theorem tryGetNewValue_some (sanityMax ewma : ℚ) (sc : ℕ) (R : ℚ) :
    tryGetNewValue sanityMax ewma sc (some R)
      = if significantChange (msgsPerSAndPeer sanityMax ewma sc / R)
        then (some (msgsPerSAndPeer sanityMax ewma sc),
              some (msgsPerSAndPeer sanityMax ewma sc))
        else (some R, none) := rfl

/-- C6 amended: with a previously advertised value `R > 0`, a new value is
stored and advertised exactly when the ratio to `R` is at most 0.95 or at
least 1.1 (both thresholds inclusive); strictly inside the band
`(0.95R, 1.10R)` nothing is advertised and `last_report` keeps `R`. -/
theorem tryGetNewValue_hysteresis (sanityMax ewma : ℚ) (sc : ℕ) (R : ℚ)
    (hR : 0 < R) :
    ((tryGetNewValue sanityMax ewma sc (some R)).2 ≠ none ↔
      (msgsPerSAndPeer sanityMax ewma sc ≤ 19/20 * R
       ∨ 11/10 * R ≤ msgsPerSAndPeer sanityMax ewma sc))
    ∧ (19/20 * R < msgsPerSAndPeer sanityMax ewma sc →
       msgsPerSAndPeer sanityMax ewma sc < 11/10 * R →
       tryGetNewValue sanityMax ewma sc (some R) = (some R, none))
    ∧ ((msgsPerSAndPeer sanityMax ewma sc ≤ 19/20 * R
        ∨ 11/10 * R ≤ msgsPerSAndPeer sanityMax ewma sc) →
       tryGetNewValue sanityMax ewma sc (some R)
         = (some (msgsPerSAndPeer sanityMax ewma sc),
            some (msgsPerSAndPeer sanityMax ewma sc))) := by
  have hv1 : 1 ≤ msgsPerSAndPeer sanityMax ewma sc :=
    one_le_msgsPerSAndPeer sanityMax ewma sc
  set v := msgsPerSAndPeer sanityMax ewma sc with hv
  have hv0 : 0 < v := lt_of_lt_of_le one_pos hv1
  have hr0 : v / R ≠ 0 := div_ne_zero (ne_of_gt hv0) (ne_of_gt hR)
  have hiff : significantChange (v / R) = true ↔
      (v ≤ 19/20 * R ∨ 11/10 * R ≤ v) := by
    rw [significantChange_true_iff]
    rw [div_le_iff₀ hR, le_div_iff₀ hR]
    constructor
    · rintro (h1 | h2 | h3)
      · exact Or.inl (by linarith)
      · exact Or.inr (by linarith)
      · exact absurd h3 hr0
    · rintro (h1 | h2)
      · exact Or.inl (by linarith)
      · exact Or.inr (Or.inl (by linarith))
  refine ⟨?_, ?_, ?_⟩
  · rw [tryGetNewValue_some, ← hv]
    by_cases hs : significantChange (v / R) = true
    · simp [hs, hiff.mp hs]
    · have hns : ¬ (v ≤ 19/20 * R ∨ 11/10 * R ≤ v) := fun hcon => hs (hiff.mpr hcon)
      simp [hs, hns]
  · intro h1 h2
    have hns : ¬ significantChange (v / R) = true := by
      rw [hiff]
      push_neg
      exact ⟨h1, h2⟩
    rw [tryGetNewValue_some, ← hv]
    simp [hns]
  · intro hout
    rw [tryGetNewValue_some, ← hv]
    simp [hiff.mpr hout]

/-- C6 counterexample to the claim as stated: at previous value 2 and
computed value 1.9 the ratio is exactly 0.95, the code stores and advertises
the new value, yet the ratio neither falls below 0.95 nor exceeds 1.10 —
the thresholds are inclusive, not strict. -/
theorem tryGetNewValue_boundary_advertises :
    (tryGetNewValue 100 (19/100) 1 (some 2)).2 = some (19/10)
    ∧ ¬ (msgsPerSAndPeer 100 (19/100) 1 / 2 < 19/20
         ∨ (11/10 : ℚ) < msgsPerSAndPeer 100 (19/100) 1 / 2) := by
  have hval : msgsPerSAndPeer 100 (19/100) 1 = 19/10 := by
    norm_num [msgsPerSAndPeer, sanityMinPerSAndPeer, max_def, min_def]
  have hsig : significantChange ((19 : ℚ)/10 / 2) = true := by
    simp only [significantChange, Bool.or_eq_true, decide_eq_true_eq]
    norm_num
  constructor
  · rw [tryGetNewValue_some, hval, hsig]
    simp
  · rw [hval]
    push_neg
    norm_num

/-- C6 witness: a change far below the band is stored and advertised. -/
theorem tryGetNewValue_hysteresis_witness :
    (0 : ℚ) < 50
    ∧ tryGetNewValue 100 1 0 (some 50)
        = (some (msgsPerSAndPeer 100 1 0), some (msgsPerSAndPeer 100 1 0)) :=
  ⟨by norm_num,
   (tryGetNewValue_hysteresis 100 1 0 50 (by norm_num)).2.2
     (Or.inl (by norm_num [msgsPerSAndPeer, sanityMinPerSAndPeer, max_def,
       min_def]))⟩

/-- C7: for a sanity ceiling of at least 1 msg/s, every per-peer tolerated
rate the controller computes lies in `[1, SANITY_MAX]`; every advertised
value lies in that interval, and every stored `last_report` value is either
the untouched previous one or lies in that interval — for any EWMA rate and
any number of sessions, including zero. -/
theorem toleratedRate_within_sanity (sanityMax ewma : ℚ) (sc : ℕ)
    (prev : Option ℚ) (h : 1 ≤ sanityMax) :
    (1 ≤ msgsPerSAndPeer sanityMax ewma sc
     ∧ msgsPerSAndPeer sanityMax ewma sc ≤ sanityMax)
    ∧ (∀ x, (tryGetNewValue sanityMax ewma sc prev).2 = some x →
        1 ≤ x ∧ x ≤ sanityMax)
    ∧ (∀ x, (tryGetNewValue sanityMax ewma sc prev).1 = some x →
        prev = some x ∨ (1 ≤ x ∧ x ≤ sanityMax)) := by
  have hv1 := one_le_msgsPerSAndPeer sanityMax ewma sc
  have hv2 := msgsPerSAndPeer_le_sanityMax sanityMax ewma sc h
  refine ⟨⟨hv1, hv2⟩, ?_, ?_⟩
  · intro x hx
    cases prev with
    | none =>
      simp only [tryGetNewValue] at hx
      split at hx
      · simp at hx
        exact hx ▸ ⟨hv1, hv2⟩
      · simp at hx
    | some R =>
      simp only [tryGetNewValue] at hx
      split at hx
      · simp at hx
        exact hx ▸ ⟨hv1, hv2⟩
      · simp at hx
  · intro x hx
    cases prev with
    | none =>
      simp only [tryGetNewValue] at hx
      split at hx <;> simp at hx <;> exact Or.inr (hx ▸ ⟨hv1, hv2⟩)
    | some R =>
      simp only [tryGetNewValue] at hx
      split at hx
      · simp at hx
        exact Or.inr (hx ▸ ⟨hv1, hv2⟩)
      · simp at hx
        exact Or.inl (by rw [hx])

/-- C7 witness: with ceiling 100, a zero EWMA rate and five sessions the
computed tolerated rate is clamped into `[1, 100]`. -/
theorem toleratedRate_within_sanity_witness :
    (1 : ℚ) ≤ 100
    ∧ (1 ≤ msgsPerSAndPeer 100 0 5 ∧ msgsPerSAndPeer 100 0 5 ≤ 100) :=
  ⟨by norm_num, (toleratedRate_within_sanity 100 0 5 none (by norm_num)).1⟩

/-- Every command produced by `sendMsgFollowUps` is a failed-send tracking
command carrying the send's message id. -/
theorem sendMsgFollowUps_shape (results : List (Except CommsError Unit))
    (msgId : Nat) :
    ∀ c ∈ sendMsgFollowUps results msgId,
      ∃ p, c = Cmd.handleFailedSendToNode p msgId := by
  intro c hc
  simp only [sendMsgFollowUps, List.mem_filterMap] at hc
  obtain ⟨r, _, hr⟩ := hc
  cases r with
  | ok u => simp at hr
  | error e =>
    cases e with
    | failedSend p =>
      simp at hr
      exact ⟨p, hr.symm⟩
    | otherErr n => simp at hr

/-- C8: per peer, `send_msg` schedules exactly one `HandleFailedSendToNode`
follow-up for each `FailedSend(peer)` comms result and none for any other
result; the call itself returns Ok and every follow-up is a failed-send
tracking command (never a re-send). -/
theorem sendMsg_failedSend_followUps (genDst : XorName → Except NodeError Dst)
    (sendOutBytes : Peer → Bytes → Except CommsError Unit)
    (results : List (Except CommsError Unit)) (msg msgId : Nat)
    (recipients : Peers) :
    (∀ p : Peer,
      (sendMsgFollowUps results msgId).count
          (Cmd.handleFailedSendToNode p msgId)
        = results.count (.error (.failedSend p)))
    ∧ (∀ c ∈ sendMsgFollowUps results msgId,
        ∃ p, c = Cmd.handleFailedSendToNode p msgId)
    ∧ ∃ cmds, sendMsg genDst sendOutBytes msg msgId recipients = .ok cmds
        ∧ ∀ c ∈ cmds, ∃ p, c = Cmd.handleFailedSendToNode p msgId := by
  refine ⟨?_, sendMsgFollowUps_shape results msgId, ?_⟩
  · intro p
    induction results with
    | nil => rfl
    | cons r t ih =>
      cases r with
      | ok u =>
        simpa [sendMsgFollowUps, List.count_cons] using ih
      | error e =>
        cases e with
        | failedSend q =>
          simp only [sendMsgFollowUps, List.filterMap_cons] at ih ⊢
          simp only [List.count_cons, ih]
          by_cases hq : q = p <;> simp [hq]
        | otherErr n =>
          simp only [sendMsgFollowUps, List.filterMap_cons] at ih ⊢
          simp only [List.count_cons, ih]
          simp
  · exact ⟨_, rfl, sendMsgFollowUps_shape _ msgId⟩

/-- C8 witness: three concrete comms results — one failed send, one success,
one other error — yield exactly one failed-send follow-up for that peer. -/
theorem sendMsg_failedSend_followUps_witness :
    (sendMsgFollowUps
        [Except.error (CommsError.failedSend ⟨[true], 1⟩), .ok (),
         .error (.otherErr 0)] 7).count
        (Cmd.handleFailedSendToNode ⟨[true], 1⟩ 7)
      = ([Except.error (CommsError.failedSend ⟨[true], 1⟩), .ok (),
          .error (.otherErr 0)]).count
          (Except.error (CommsError.failedSend ⟨[true], 1⟩)) :=
  (sendMsg_failedSend_followUps (fun _ => .error .noMatchingSection)
      (fun _ _ => .ok ())
      [Except.error (CommsError.failedSend ⟨[true], 1⟩), .ok (),
       .error (.otherErr 0)] 0 7 (.multiple [])).1 ⟨[true], 1⟩

/-- C9: `Config::validate` rejects a configuration with both `first` and a
network contacts file (mutually exclusive) and accepts one with exactly one
of the two options set. -/
theorem configValidate_mutually_exclusive (c : Config) :
    (c.first = true → c.networkContactsFile.isSome = true →
      c.validate = .error .configuration)
    ∧ ((c.first ^^ c.networkContactsFile.isSome) = true →
      c.validate = .ok ()) := by
  obtain ⟨f, nf⟩ := c
  cases f <;> cases nf <;> simp [Config.validate]

/-- C9 witness: both options set is rejected; `first` alone is accepted. -/
theorem configValidate_mutually_exclusive_witness :
    Config.validate ⟨true, some 0⟩ = .error .configuration
    ∧ Config.validate ⟨true, none⟩ = .ok () :=
  ⟨(configValidate_mutually_exclusive ⟨true, some 0⟩).1 rfl rfl,
   (configValidate_mutually_exclusive ⟨true, none⟩).2 rfl⟩

/-- C10: `into_msg_bytes` always returns Ok; every recipient for whom a
`Dst` can be generated appears in the returned list paired with the bytes
re-stamped with that `Dst`, and a recipient for whom the generation fails is
silently omitted (everyone in the output is a routable recipient). -/
theorem intoMsgBytes_skips_unroutable (genDst : XorName → Except NodeError Dst)
    (msg msgId : Nat) (recipients : Peers) :
    ∃ l, intoMsgBytes genDst msg msgId recipients = .ok l
      ∧ (∀ p ∈ recipients.toList,
          (∃ d, genDst p.name = .ok d) → p ∈ l.map Prod.fst)
      ∧ (∀ p ∈ l.map Prod.fst,
          p ∈ recipients.toList ∧ ∃ d, genDst p.name = .ok d)
      ∧ (∀ pb ∈ l, ∃ d, genDst pb.1.name = .ok d
          ∧ pb.2 = serializeWithNewDst ⟨msgId, .node, msg, placeholderDst⟩ d) := by
  refine ⟨_, rfl, ?_, ?_, ?_⟩
  · rintro p hp ⟨d, hd⟩
    refine List.mem_map.mpr
      ⟨(p, serializeWithNewDst ⟨msgId, .node, msg, placeholderDst⟩ d), ?_, rfl⟩
    exact List.mem_filterMap.mpr ⟨p, hp, by simp [hd]⟩
  · intro p hp
    obtain ⟨⟨q, b⟩, hqb, hq⟩ := List.mem_map.mp hp
    obtain ⟨a, ha, hfa⟩ := List.mem_filterMap.mp hqb
    cases hga : genDst a.name with
    | ok d =>
      rw [hga] at hfa
      simp at hfa
      obtain ⟨rfl, -⟩ := hfa
      subst hq
      exact ⟨ha, d, hga⟩
    | error e =>
      rw [hga] at hfa
      simp at hfa
  · rintro ⟨q, b⟩ hqb
    obtain ⟨a, ha, hfa⟩ := List.mem_filterMap.mp hqb
    cases hga : genDst a.name with
    | ok d =>
      rw [hga] at hfa
      simp at hfa
      obtain ⟨rfl, rfl⟩ := hfa
      exact ⟨d, hga, rfl⟩
    | error e =>
      rw [hga] at hfa
      simp at hfa

/-- C10 witness: of two recipients, the one whose `Dst` generation fails is
omitted while the routable one is kept and the call still returns Ok. -/
theorem intoMsgBytes_skips_unroutable_witness :
    ∃ l, intoMsgBytes
        (fun n => if n = [true] then Except.error NodeError.noMatchingSection
                  else .ok ⟨n, 3⟩) 9 7
        (Peers.multiple [⟨[true], 1⟩, ⟨[false], 2⟩]) = .ok l
      ∧ Peer.mk [false] 2 ∈ l.map Prod.fst
      ∧ ¬ Peer.mk [true] 1 ∈ l.map Prod.fst := by
  obtain ⟨l, h1, h2, h3, h4⟩ := intoMsgBytes_skips_unroutable
    (fun n => if n = [true] then Except.error NodeError.noMatchingSection
              else .ok ⟨n, 3⟩) 9 7
    (Peers.multiple [⟨[true], 1⟩, ⟨[false], 2⟩])
  refine ⟨l, h1, ?_, ?_⟩
  · exact h2 ⟨[false], 2⟩ (by simp [Peers.toList]) ⟨⟨[false], 3⟩, by simp⟩
  · intro hmem
    obtain ⟨-, d, hd⟩ := h3 ⟨[true], 1⟩ hmem
    simp at hd

end SafeNet
